import Mathlib

/-!
Verification of GoInstaller (a privilege-gated file-deployment and
OS-integration installer written in Go) against its natural-language
specification.

The Go source is shallowly embedded as follows:
- Go strings are modelled as `String` where only opaque path/message data is
  carried, and as `List Char` where the code inspects or rewrites individual
  bytes (all relevant bytes are ASCII, so byte = character here);
- the file system is a map `String → Option Bytes`; `none` means "no file":
  `os.Stat` yields `os.ErrNotExist` exactly on `none`;
- OS side effects (directory creation, file writes, command execution,
  registry access, console output) are recorded in an explicit `Event` trace;
- a Go `error` from ordinary functions is `Option String` (`none` = nil).
  A Go error returned by `syscall.(*Proc).Call` is special: per its
  documentation that error is ALWAYS non-nil (it wraps `GetLastError`, which
  is `Errno(0)` on success, still a non-nil interface value). We model such an
  error as `GoCallErr := Option Nat` and `(*Proc).Call` as returning
  `some errno`, so the Go test `err != nil` is `Option.isSome` (constantly
  true on a `Call` result) and `err != syscall.Errno(0)` is `· ≠ some 0`.
-/

namespace GoInstaller

/-- Byte string (Go `[]byte`). -/
abbrev Bytes := List Nat

/-- File-system model: a total map from paths to optional file contents.
`none` models the absence of a file (`os.Stat` errors with `os.ErrNotExist`). -/
abbrev FS := String → Option Bytes

/-- A Go `error` value as returned by `syscall.(*Proc).Call`: always non-nil,
carrying the `GetLastError` errno (0 on OS-level success). -/
abbrev GoCallErr := Option Nat

/-- Result of `(*Proc).Call`: the returned error is always a non-nil
`syscall.Errno`, so it is `some errno`, never `none`. -/
def procCallErr (errno : Nat) : GoCallErr := some errno

/-- The double-quote character (ASCII 34). -/
def dquote : Char := Char.ofNat 34

/-- Models Go `filepath.Join(p, n)` for a clean directory path `p` and a bare
file name `n` (the only shape used in this repository); path cleaning of the
result is not modelled. -/
def joinPath (p n : String) : String := p ++ "/" ++ n

/-- Point update of the file-system map: the effect of a successful
`os.WriteFile`. -/
def fsWrite (fs : FS) (p : String) (d : Bytes) : FS :=
  fun q => if q = p then some d else fs q

/-- Registry value type constant `REG_SZ` (plain string). -/
def REG_SZ : Nat := 1

/-- Registry value type constant `REG_EXPAND_SZ` (expandable string). -/
def REG_EXPAND_SZ : Nat := 2

/-- Observable side effects of the installer, in program order. -/
inductive Event where
  | createDir (path : String)
  | writeFile (path : String) (data : Bytes)
  | execCmd (command : String)
  | printOut (s : String)
  | printErr (s : String)
  | callback (tag : String) (path : String)
  | regCreateKey (path : String)
  | regOpenKey (path : String)
  | regSetValue (keyPath : String) (valueName : String) (valueType : Nat) (data : String)
  | regCloseKey (path : String)
  deriving Repr, DecidableEq

/-- An event is an "install action" when it creates a directory, writes a
file, or executes a post-install command. -/
def Event.isInstallAction : Event → Bool
  | .createDir _ => true
  | .writeFile _ _ => true
  | .execCmd _ => true
  | _ => false

/-!
## `add_string_list_value` (GoInstaller/installer_windows.go, lines 201-214)

```go
func add_string_list_value (list string, new_value string, separator byte) string {
    string_length := len(list)
    if string_length == 0 {
        return new_value
    }
    if list[len(list) - 1] != separator {
        list += string(separator)
    } else {
        new_value += string(separator)
    }
    return list + new_value
}
```
Strings are byte strings here (the code indexes bytes), modelled as
`List Char`; for a non-empty list, `list[len(list)-1]` is `list.getLast?`.
-/

/-- Single-character-separator list join from installer_windows.go. -/
def add_string_list_value (list new_value : List Char) (separator : Char) : List Char :=
  if list.length = 0 then new_value
  else if list.getLast? ≠ some separator then (list ++ [separator]) ++ new_value
  else list ++ (new_value ++ [separator])

/-!
## Windows command escaping (GoInstaller/installer_windows.go, lines 252-258)

```go
func execute_windows_command (command string) *exec.Cmd {
    cmd := exec.Command("cmd.exe")
    cmd.SysProcAttr = &syscall.SysProcAttr{
        CmdLine: "C:\\Windows\\System32\\cmd.exe /C " +
            strings.ReplaceAll(strings.ReplaceAll(command, "^", "^^"), "\"", "^\""),
    }
    return cmd
}
```
-/

/-- Models Go `strings.ReplaceAll(s, old, new)` on byte strings for a
non-empty pattern `old` (both patterns used in this repository, `"^"` and
`"\""`, are single characters; Go's insert-everywhere behaviour for an empty
pattern is not modelled and the empty pattern is mapped to the identity). -/
def replaceAll (s old new : List Char) : List Char :=
  match old with
  | [] => s
  | o :: os =>
    match s with
    | [] => []
    | c :: rest =>
      if (o :: os).isPrefixOf (c :: rest) then
        new ++ replaceAll (rest.drop os.length) (o :: os) new
      else
        c :: replaceAll rest (o :: os) new
termination_by s.length
decreasing_by
  · simp only [List.length_cons, List.length_drop]
    omega
  · simp

/-- The escaping applied to the command text in `execute_windows_command`:
first every caret is doubled, then every double quote is caret-prefixed. -/
def escape_windows_command (command : List Char) : List Char :=
  replaceAll (replaceAll command [ '^' ] [ '^', '^' ]) [ dquote ] [ '^', dquote ]

/-- The full `/C` command line composed by `execute_windows_command`. -/
def execute_windows_command_cmdline (command : List Char) : List Char :=
  "C:\\Windows\\System32\\cmd.exe /C ".toList ++ escape_windows_command command

/-- Character-wise concat-map (Go has no such helper; used to state the
specification view of the escaping). -/
def flatMapC (f : Char → List Char) : List Char → List Char
  | [] => []
  | c :: rest => f c ++ flatMapC f rest

/-- Modelled from the spec's words (refinement reference, not from the
source): the per-character escaping map — caret becomes a doubled caret,
double quote becomes a caret-prefixed double quote, every other character is
unchanged. -/
def escape_char_spec (c : Char) : List Char :=
  if c = '^' then [ '^', '^' ]
  else if c = dquote then [ '^', dquote ]
  else [c]

/-!
## `file_exists` and `write_file` (GoInstaller/GoInstaller.go, lines 199-222)

```go
func file_exists(file_path string) bool {
    _, err := os.Stat(file_path)
    return !errors.Is(err, os.ErrNotExist)
}

func write_file(file File) string {
    fullfilepath := filepath.Join(file.path, file.name)
    if file.filetype != "data" || !file_exists(fullfilepath) {
        err := os.WriteFile(fullfilepath, file.data, 0755)
        if err != nil { ... os.Exit(2) }
        fmt.Printf("Installed: %s\n", fullfilepath)
    } else {
        fmt.Printf("Data file already exists: %s\n", fullfilepath)
    }
    return fullfilepath
}
```
`os.WriteFile` is modelled as succeeding (its failure path exits the process
with code 2 and is outside the claims considered here).
-/

/-- The `File` descriptor from GoInstaller.go. The Go field
`callback func(string)` is one of two named Windows callbacks
(`add_to_windows_menu`, `create_service`) whose bodies are native Win32
side effects; it is modelled as an optional tag recorded in the trace. -/
structure File where
  filetype : String
  path : String
  name : String
  data : Bytes
  callback : Option String

/-- `file_exists` from GoInstaller.go: true unless `os.Stat` reports that the
file does not exist. -/
def file_exists (fs : FS) (file_path : String) : Bool :=
  (fs file_path).isSome

/-- `write_file` from GoInstaller.go: returns the updated file system, the
emitted events and the full file path. -/
def write_file (file : File) (fs : FS) : FS × List Event × String :=
  let fullfilepath := joinPath file.path file.name
  if file.filetype ≠ "data" ∨ file_exists fs fullfilepath = false then
    (fsWrite fs fullfilepath file.data,
     [Event.writeFile fullfilepath file.data,
      Event.printOut ("Installed: " ++ fullfilepath)],
     fullfilepath)
  else
    (fs,
     [Event.printOut ("Data file already exists: " ++ fullfilepath)],
     fullfilepath)

/-!
## Inline PATH join of `add_to_system_path` (GoInstaller.go, lines 420-426)

```go
    current_path := syscall.UTF16ToString(buffer)
    if current_path[len(current_path)-1] != ';' {
        current_path += ";"
    } else {
        new_path += ";"
    }
    new_path_value := current_path + new_path
```
This is the older inline variant in the repository root's GoInstaller.go
(distinct from `add_string_list_value` used by GoInstaller/installer_windows.go).
Go string indexing out of range panics at run time; the panic is modelled as
`none`.
-/

/-- Go string byte indexing `s[i]` with a signed index: `none` models the
run-time "index out of range" panic. -/
def goStringIndex (s : List Char) (i : Int) : Option Char :=
  if h : 0 ≤ i ∧ i.toNat < s.length then some (s.get ⟨i.toNat, h.2⟩) else none

/-- The inline join step of `add_to_system_path` in GoInstaller.go:
`none` models the panic raised by `current_path[len(current_path)-1]`. -/
def add_to_system_path_join (current_path new_path : List Char) : Option (List Char) :=
  match goStringIndex current_path ((current_path.length : Int) - 1) with
  | none => none
  | some c =>
    if c ≠ ';' then some ((current_path ++ [ ';' ]) ++ new_path)
    else some (current_path ++ (new_path ++ [ ';' ]))

/-!
## `add_application_source_log` (GoInstaller/installer_windows.go, lines 263-282)

```go
func add_application_source_log (application string) {
    registry_path := syscall.StringToUTF16Ptr("SYSTEM\\CurrentControlSet\\Services\\EventLog\\Application\\" + application)
    var handle syscall.Handle
    _, _, err := regCreateKeyEx.Call(HKEY_LOCAL_MACHINE, ..., uintptr(unsafe.Pointer(&handle)), 0)
    if err != nil {
        fmt.Fprintf(os.Stderr, "Failed to register event source: %v\n", err)
        return
    }
    defer regCloseKey.Call(uintptr(handle))
    ...
    _, _, err = regSetValueEx.Call(uintptr(handle), ...EventMessageFile..., REG_SZ, ...)
    if err != nil {
        fmt.Fprintf(os.Stderr, "Failed to set EventMessageFile: %v\n", err)
    }
    fmt.Println("Event source registered successfully.")
}
```
Note the two `if err != nil` checks: `(*Proc).Call` documents that its error
result is always non-nil (`syscall.Errno(0)` on success), so both conditions
are modelled through `procCallErr`, whose result is always `some errno`. The
sibling functions of the same file (`add_to_system_path`, `new_registry_key`)
use `err != nil && err != syscall.Errno(0)` instead.
-/

/-- OS-dependent inputs of `add_application_source_log`: the errnos reported
by the two registry calls and the system directory returned by
`GetSystemDirectory`. -/
structure EventLogEnv where
  createErrno : Nat
  setErrno : Nat
  systemDirectory : String

/-- `add_application_source_log` from installer_windows.go, as an event
trace. The `defer regCloseKey` is registered only after the first error
check, so the early return closes no key. -/
def add_application_source_log (application : String) (env : EventLogEnv) : List Event :=
  let registry_path :=
    "SYSTEM\\CurrentControlSet\\Services\\EventLog\\Application\\" ++ application
  let err := procCallErr env.createErrno
  Event.regCreateKey registry_path ::
  if err.isSome then
    [Event.printErr "Failed to register event source"]
  else
    let event_message_file := env.systemDirectory ++ "\\EventCreate.exe"
    let err2 := procCallErr env.setErrno
    Event.regSetValue registry_path "EventMessageFile" REG_SZ event_message_file ::
    if err2.isSome then
      [Event.printErr "Failed to set EventMessageFile",
       Event.printOut "Event source registered successfully.",
       Event.regCloseKey registry_path]
    else
      [Event.printOut "Event source registered successfully.",
       Event.regCloseKey registry_path]

/-!
## Privilege checks (GoInstaller/installer_linux.go / GoInstaller.go)

```go
func check_root() (bool, error) {
    return os.Geteuid() == 0, nil
}

func check_privileges() (bool, error) {
    switch runtime.GOOS {
    case "windows":
        return check_administrator()
    default:
        return check_root()
    }
}
```
-/

/-- `check_root`: the POSIX privilege check, parameterised by the effective
user id returned by `os.Geteuid()`. -/
def check_root (euid : Int) : Bool × Option String :=
  (euid == 0, none)

/-!
## The installer pipeline (GoInstaller/GoInstaller.go)

The orchestration (`main`, `create_directories`, `process_directories`,
`process_directory`, `process_file`, `run_commands`) is embedded as an event
trace parameterised by a `Config` carrying every OS- or build-time-dependent
input: the platform, the environment, the initial file system, the embedded
bundles (`//go:embed` categories), the effective uid / administrator check
result, the registry `Path` value, the templated command lists and the
outcome of executing each command.
-/

/-- Build-time and OS inputs of one installer run. -/
structure Config where
  /-- `runtime.GOOS == "windows"` -/
  isWindows : Bool
  /-- the templated `application_name` constant -/
  appName : String
  /-- `os.Getenv` -/
  env : String → String
  /-- initial file system -/
  fs0 : FS
  /-- embedded bundle provider: category name to (file name, content) list,
  in `ReadDir` order -/
  bundles : String → List (String × Bytes)
  /-- `os.Geteuid()` -/
  euid : Int
  /-- result of the Win32 `check_administrator` sequence -/
  adminResult : Bool × Option String
  /-- OS inputs of the event-log registrar -/
  eventLogEnv : EventLogEnv
  /-- current registry `Path` value -/
  currentPath : String
  /-- templated `${WINDOWS_COMMANDS}` -/
  windowsCommands : List String
  /-- templated `${LINUX_COMMANDS}` -/
  linuxCommands : List String
  /-- OS execution of one command: combined output and whether
  `CombinedOutput` returned a non-nil error -/
  run : String → String × Bool

/-- `check_privileges` from GoInstaller.go: platform switch between the
administrator check and `check_root`. -/
def check_privileges (cfg : Config) : Bool × Option String :=
  if cfg.isWindows then cfg.adminResult else check_root cfg.euid

/-- `add_string_list_value` lifted to `String` (installer_windows.go calls it
on the decoded registry value). -/
def add_string_list_value_str (list new_value : String) (separator : Char) : String :=
  String.mk (add_string_list_value list.data new_value.data separator)

/-- `add_to_system_path` from installer_windows.go as an event trace
(registry errnos are not modelled here; only the written value matters to the
claims below). -/
def add_to_system_path_model (cfg : Config) (new_path : String) : List Event :=
  let envKey := "SYSTEM\\CurrentControlSet\\Control\\Session Manager\\Environment"
  let new_path_value := add_string_list_value_str cfg.currentPath new_path (';')
  [Event.regOpenKey envKey,
   Event.regSetValue envKey "Path" REG_EXPAND_SZ new_path_value,
   Event.regCloseKey envKey]

/-- The loop body of `run_commands` from GoInstaller.go: for each command in
order, execute it (`CombinedOutput`), log `Command error` when the error is
non-nil, and always print the combined output. The loop contains no break or
early return. -/
def run_commands_loop (run : String → String × Bool) : List String → List Event
  | [] => []
  | command :: rest =>
    let result := run command
    Event.execCmd command ::
      ((if result.2 then [Event.printErr "Command error"] else []) ++
       (Event.printOut ("Ouput: " ++ result.1) ::
        run_commands_loop run rest))

/-- `run_commands` from GoInstaller.go: platform-selected templated command
list fed to the loop. -/
def run_commands_model (cfg : Config) : List Event :=
  run_commands_loop cfg.run
    (if cfg.isWindows then cfg.windowsCommands else cfg.linuxCommands)

/-- `create_directories` from GoInstaller.go: program and data directories,
plus the event-log registration (Windows) or the log directory (POSIX).
`os.MkdirAll` failure exits with code 1 and is outside the claims here. -/
def create_directories (cfg : Config) : String × String × List Event :=
  let program_files_dir := if cfg.isWindows then cfg.env "PROGRAMFILES" else "/usr/local/bin"
  let program_data_dir := if cfg.isWindows then cfg.env "PROGRAMDATA" else "/var/lib"
  let program_files_dir := joinPath program_files_dir cfg.appName
  let program_data_dir := joinPath program_data_dir cfg.appName
  (program_files_dir, program_data_dir,
   [Event.createDir program_files_dir, Event.createDir program_data_dir] ++
   (if cfg.isWindows then add_application_source_log cfg.appName cfg.eventLogEnv
    else [Event.createDir ("/var/log/" ++ cfg.appName)]))

/-- `process_file` from GoInstaller.go: fills in the entry name and content
(the embedded read cannot fail in the model, the bundle carries the bytes),
writes the file and invokes the callback on the full path. -/
def process_file (entry : String × Bytes) (file : File) (fs : FS) : FS × List Event :=
  let file := { file with name := entry.1, data := entry.2 }
  let result := write_file file fs
  (result.1,
   result.2.1 ++
   (match file.callback with
    | some tag => [Event.callback tag result.2.2]
    | none => []))

/-- `process_directory` from GoInstaller.go: iterate the bundle entries of
the `File`'s category (the `ReadDir` error path only logs and skips; a
missing category is the empty list here). -/
def process_directory (entries : List (String × Bytes)) (file : File) (fs : FS) :
    FS × List Event :=
  match entries with
  | [] => (fs, [])
  | entry :: rest =>
    let step := process_file entry file fs
    let further := process_directory rest file step.1
    (further.1, step.2 ++ further.2)

/-- `process_directories` from GoInstaller.go: the four category passes with
the same field mutations as the Go code (the `File` value is updated in
place between passes; on POSIX the callback field is never set). -/
def process_directories (cfg : Config) (program_directory data_directory : String)
    (fs : FS) : FS × List Event :=
  let file : File := {
    filetype := "data", path := data_directory, name := "", data := [], callback := none }
  let step1 := process_directory (cfg.bundles "data") file fs
  let file := { file with path := program_directory, filetype := "program" }
  let step2 := process_directory (cfg.bundles "program") file step1.1
  let file := { file with
    filetype := "gui",
    callback := (if cfg.isWindows then some "add_to_windows_menu" else none) }
  let step3 := process_directory (cfg.bundles "gui") file step2.1
  let file := if cfg.isWindows then
                { file with
                  path := program_directory, callback := some "create_service",
                  filetype := "service" }
              else
                { file with path := "/etc/systemd/system/", filetype := "service" }
  let step4 := process_directory (cfg.bundles "service") file step3.1
  (step4.1, step1.2 ++ step2.2 ++ step3.2 ++ step4.2)

/-- `main` from GoInstaller.go: the full trace and the process exit code.
Privilege failure prints to stderr and exits with code 5 before any other
step; otherwise directories are created, the four categories deployed, the
PATH updated on Windows, the command list run, and the process exits 0. -/
def main_run (cfg : Config) : List Event × Nat :=
  let priv := check_privileges cfg
  if priv.2.isSome ∨ priv.1 = false then
    (Event.printErr "This software installer require privileges." ::
       (if priv.2.isSome then [Event.printErr "Error checking privileges."] else []),
     5)
  else
    let dirs := create_directories cfg
    let deployed := process_directories cfg dirs.1 dirs.2.1 cfg.fs0
    let pathEvents := if cfg.isWindows then add_to_system_path_model cfg dirs.1 else []
    (dirs.2.2 ++ deployed.2 ++ pathEvents ++ run_commands_model cfg ++
       [Event.printOut "Installation completed successfully!"],
     0)

/-- The commands actually executed, in trace order. -/
def executedCommands : List Event → List String
  | [] => []
  | Event.execCmd c :: rest => c :: executedCommands rest
  | _ :: rest => executedCommands rest

/-- The lines printed to standard output, in trace order. -/
def printedOutputs : List Event → List String
  | [] => []
  | Event.printOut s :: rest => s :: printedOutputs rest
  | _ :: rest => printedOutputs rest

/-- The lines printed to standard error, in trace order. -/
def printedErrors : List Event → List String
  | [] => []
  | Event.printErr s :: rest => s :: printedErrors rest
  | _ :: rest => printedErrors rest

/-!
## Concrete inputs used by the witnesses
-/

/-- A data-category file descriptor. -/
def fileDataW : File :=
  { filetype := "data", path := "/var/lib/App", name := "conf", data := [1, 2, 3],
    callback := none }

/-- A program-category file descriptor. -/
def fileProgramW : File :=
  { filetype := "program", path := "/usr/local/bin/App", name := "app", data := [4, 5],
    callback := none }

/-- A file system holding a pre-existing file at the data file's target path. -/
def fsExistingW : FS :=
  fun q => if q = "/var/lib/App/conf" then some [9] else none

/-- The empty file system. -/
def fsEmptyW : FS := fun _ => none

/-- A configuration describing a non-elevated POSIX run. -/
def cfgUnprivilegedW : Config :=
  { isWindows := false, appName := "App", env := fun _ => "",
    fs0 := fun _ => none, bundles := fun _ => [], euid := 1000,
    adminResult := (false, none), eventLogEnv := ⟨0, 0, "C:\\Windows\\system32"⟩,
    currentPath := "", windowsCommands := [], linuxCommands := [],
    run := fun _ => ("", false) }

/-!
## Theorems
-/

/-- Claim C1: for every data-category file whose target path already holds an
existing file, `write_file` skips the write (the file system is unchanged and
no write event is emitted), so the pre-existing bytes are preserved; when no
file exists at the target path, `write_file` writes exactly the embedded
content. -/
theorem write_file_data_category (file : File) (fs : FS)
    (h : file.filetype = "data") :
    (file_exists fs (joinPath file.path file.name) = true →
       (write_file file fs).1 = fs ∧
       ∀ p d, Event.writeFile p d ∉ (write_file file fs).2.1) ∧
    (file_exists fs (joinPath file.path file.name) = false →
       (write_file file fs).1 (joinPath file.path file.name) = some file.data) := by
  constructor
  · intro hex
    have hcond : ¬ (file.filetype ≠ "data" ∨
        file_exists fs (joinPath file.path file.name) = false) := by
      simp [h, hex]
    constructor
    · simp only [write_file]
      rw [if_neg hcond]
    · intro p d
      simp only [write_file]
      rw [if_neg hcond]
      simp
  · intro hex
    have hcond : (file.filetype ≠ "data" ∨
        file_exists fs (joinPath file.path file.name) = false) := Or.inr hex
    simp only [write_file]
    rw [if_pos hcond]
    simp [fsWrite]

/-- Witness for C1: with a pre-existing file the file system is returned
unchanged; with no pre-existing file the embedded bytes land at the target
path. -/
theorem write_file_data_category_witness :
    (write_file fileDataW fsExistingW).1 = fsExistingW ∧
    (write_file fileDataW fsEmptyW).1 (joinPath fileDataW.path fileDataW.name) =
      some fileDataW.data := by
  constructor
  · exact ((write_file_data_category fileDataW fsExistingW rfl).1 (by decide)).1
  · exact (write_file_data_category fileDataW fsEmptyW rfl).2 (by decide)

/-- Claim C6: for every non-data-category file, `write_file` unconditionally
writes the embedded content to the target path, regardless of the
pre-existing file system. -/
theorem write_file_non_data_overwrites (file : File) (fs : FS)
    (h : file.filetype ≠ "data") :
    (write_file file fs).1 (joinPath file.path file.name) = some file.data := by
  have hcond : (file.filetype ≠ "data" ∨
      file_exists fs (joinPath file.path file.name) = false) := Or.inl h
  simp only [write_file]
  rw [if_pos hcond]
  simp [fsWrite]

/-- Witness for C6: a program-category file overwrites even on a file system
where a file already exists at the target path. -/
theorem write_file_non_data_overwrites_witness :
    (write_file fileProgramW fsExistingW).1
      (joinPath fileProgramW.path fileProgramW.name) = some fileProgramW.data :=
  write_file_non_data_overwrites fileProgramW fsExistingW (by decide)

/-- Claim C2: for every non-empty existing PATH value, `add_string_list_value`
with separator `;` inserts a separator before the new segment when the
existing value does not end with one, and appends the separator after the new
segment when it does. -/
theorem add_string_list_value_semicolon_join (existing new : List Char)
    (h : existing ≠ []) :
    (existing.getLast? ≠ some (';') →
       add_string_list_value existing new (';') = (existing ++ [ ';' ]) ++ new) ∧
    (existing.getLast? = some (';') →
       add_string_list_value existing new (';') = existing ++ (new ++ [ ';' ])) := by
  have hl : ¬ existing.length = 0 := by
    simpa [List.length_eq_zero] using h
  constructor
  · intro hc
    simp [add_string_list_value, hl, hc]
  · intro hc
    simp [add_string_list_value, hl, hc]

/-- Witness for C2: the two concrete PATH joins named by the claim. -/
theorem add_string_list_value_semicolon_join_witness :
    add_string_list_value ("C:\\A;C:\\B".toList) ("C:\\C".toList) (';') =
      "C:\\A;C:\\B;C:\\C".toList ∧
    add_string_list_value ("C:\\A;".toList) ("C:\\C".toList) (';') =
      "C:\\A;C:\\C;".toList := by
  constructor
  · exact ((add_string_list_value_semicolon_join ("C:\\A;C:\\B".toList)
      ("C:\\C".toList) (by decide)).1 (by decide)).trans (by decide)
  · exact ((add_string_list_value_semicolon_join ("C:\\A;".toList)
      ("C:\\C".toList) (by decide)).2 (by decide)).trans (by decide)

/-- Claim C9: joining onto an empty existing list returns the new value
alone, unchanged, for every new value and every separator. -/
theorem add_string_list_value_empty_list (new_value : List Char) (separator : Char) :
    add_string_list_value [] new_value separator = new_value := by
  simp [add_string_list_value]

/-- Concat-map distributes over list append. -/
theorem flatMapC_append (f : Char → List Char) (a b : List Char) :
    flatMapC f (a ++ b) = flatMapC f a ++ flatMapC f b := by
  induction a with
  | nil => rfl
  | cons c rest ih => simp [flatMapC, ih]

/-- `replaceAll` with a single-character pattern is a character-wise
concat-map. -/
theorem replaceAll_single (s : List Char) (p : Char) (r : List Char) :
    replaceAll s [p] r = flatMapC (fun c => if c = p then r else [c]) s := by
  induction s with
  | nil => simp [replaceAll, flatMapC]
  | cons c rest ih =>
    rw [replaceAll]
    by_cases hc : c = p
    · subst hc
      simp [List.isPrefixOf, flatMapC, ih]
    · simp [List.isPrefixOf, flatMapC, ih, hc, Ne.symm hc]

/-- Two chained concat-maps compose into one. -/
theorem flatMapC_comp (f g : Char → List Char) (s : List Char) :
    flatMapC g (flatMapC f s) = flatMapC (fun c => flatMapC g (f c)) s := by
  induction s with
  | nil => rfl
  | cons c rest ih => simp [flatMapC, flatMapC_append, ih]

/-- Pointwise-equal maps give equal concat-maps. -/
theorem flatMapC_congr (f g : Char → List Char) (s : List Char)
    (h : ∀ c, f c = g c) : flatMapC f s = flatMapC g s := by
  induction s with
  | nil => rfl
  | cons c rest ih => simp [flatMapC, h c, ih]

/-- Claim C3: the Windows command escaping turns every caret of the input
into a doubled caret and every double quote into a caret-prefixed double
quote, leaving all other characters unchanged — i.e. it equals the
character-wise map `escape_char_spec` stated from the spec. -/
theorem escape_windows_command_spec (command : List Char) :
    escape_windows_command command = flatMapC escape_char_spec command := by
  unfold escape_windows_command
  rw [replaceAll_single, replaceAll_single, flatMapC_comp]
  apply flatMapC_congr
  intro c
  by_cases h1 : c = '^'
  · subst h1
    simp [flatMapC, escape_char_spec, dquote]
  · by_cases h2 : c = dquote
    · subst h2
      simp [flatMapC, escape_char_spec, dquote]
    · simp [flatMapC, escape_char_spec, h1, h2]

/-- Claim C4: the command loop executes every command exactly once in list
order regardless of failures, prints the combined output of every command,
and logs an error exactly for the failing commands. -/
theorem run_commands_loop_sequencing (run : String → String × Bool)
    (commands : List String) :
    executedCommands (run_commands_loop run commands) = commands ∧
    printedOutputs (run_commands_loop run commands) =
      commands.map (fun c => "Ouput: " ++ (run c).1) ∧
    printedErrors (run_commands_loop run commands) =
      (commands.filter (fun c => (run c).2)).map (fun _ => "Command error") := by
  induction commands with
  | nil => exact ⟨rfl, rfl, rfl⟩
  | cons c rest ih =>
    by_cases hf : (run c).2 <;>
      simp [run_commands_loop, hf, executedCommands, printedOutputs, printedErrors,
        List.filter_cons, ih.1, ih.2.1, ih.2.2]

/-- Claim C5: whenever the privilege check reports an error or a lack of
privileges, `main` exits with code 5 and its trace contains no directory
creation, no file write and no command execution. -/
theorem main_run_unprivileged_exits_5 (cfg : Config)
    (h : (check_privileges cfg).2.isSome = true ∨ (check_privileges cfg).1 = false) :
    (main_run cfg).2 = 5 ∧
    ∀ e ∈ (main_run cfg).1, e.isInstallAction = false := by
  simp only [main_run]
  rw [if_pos h]
  refine ⟨rfl, ?_⟩
  intro e he
  by_cases hs : (check_privileges cfg).2.isSome = true <;>
    simp [hs] at he
  · rcases he with rfl | rfl <;> rfl
  · rcases he with rfl
    rfl

/-- Witness for C5: a non-elevated POSIX run (effective uid 1000) exits with
code 5 and performs no install action. -/
theorem main_run_unprivileged_exits_5_witness :
    (main_run cfgUnprivilegedW).2 = 5 ∧
    ∀ e ∈ (main_run cfgUnprivilegedW).1, e.isInstallAction = false :=
  main_run_unprivileged_exits_5 cfgUnprivilegedW (Or.inr (by decide))

/-- Claim C7: the POSIX privilege check returns true exactly when the
effective user id is 0, and its error is always nil. -/
theorem check_root_iff_euid_zero (euid : Int) :
    ((check_root euid).1 = true ↔ euid = 0) ∧ (check_root euid).2 = none := by
  constructor
  · simp [check_root]
  · rfl

/-- Claim C8 (code evaluation): because `(*Proc).Call` always returns a
non-nil error and `add_application_source_log` tests only `err != nil`, the
function logs a registration failure and returns for every application name
and every OS outcome — it never sets `EventMessageFile` and never closes the
key it created. -/
theorem add_application_source_log_always_fails (application : String)
    (env : EventLogEnv) :
    add_application_source_log application env =
      [Event.regCreateKey
         ("SYSTEM\\CurrentControlSet\\Services\\EventLog\\Application\\" ++ application),
       Event.printErr "Failed to register event source"] := by
  simp [add_application_source_log, procCallErr]

/-- Claim C10 (counterexample): with an empty current `Path` value the inline
join of `add_to_system_path` in GoInstaller.go indexes out of bounds — the
result is `none`, modelling the Go index-out-of-range panic, so the step is
not total. -/
theorem add_to_system_path_join_empty_panics :
    add_to_system_path_join [] ("C:\\P".toList) = none := by decide

/-- Claim C10 (amended): for every non-empty current `Path` value the byte
access `current_path[len(current_path)-1]` is in bounds and the inline join
step succeeds. -/
theorem add_to_system_path_join_total_of_nonempty (current_path new_path : List Char)
    (h : current_path ≠ []) :
    (add_to_system_path_join current_path new_path).isSome = true := by
  have hl : 0 < current_path.length := List.length_pos.mpr h
  have hcond : 0 ≤ (current_path.length : Int) - 1 ∧
      ((current_path.length : Int) - 1).toNat < current_path.length := by
    omega
  have hidx : goStringIndex current_path ((current_path.length : Int) - 1) =
      some (current_path.get ⟨((current_path.length : Int) - 1).toNat, hcond.2⟩) :=
    dif_pos hcond
  unfold add_to_system_path_join
  rw [hidx]
  split
  · rename_i heq
    exact Option.noConfusion heq
  · split <;> rfl

/-- Witness for the amended C10: a concrete non-empty `Path` value joins
without a panic. -/
theorem add_to_system_path_join_total_of_nonempty_witness :
    (add_to_system_path_join ("C:\\A".toList) ("C:\\B".toList)).isSome = true :=
  add_to_system_path_join_total_of_nonempty ("C:\\A".toList) ("C:\\B".toList) (by decide)

end GoInstaller
